import Mathlib

/-!
Verification of the MRN (Median Ratio Normalization) pipeline implemented in
`src/mrn/p9855_mrn.ipynb`.

The numerical core of the notebook operates on an expression matrix `EM`
(samples × genes, non-negative counts), a clone (group) assignment mapping each
sample to a clone ID, and a chosen reference clone.  We embed the matrix as a
function `Fin m → Fin n → ℚ` (samples indexed by `Fin m`, genes by `Fin n`),
the clone assignment as `Fin m → ℕ`, and follow the notebook's cells:

* `library_size`   — cell `library_size = EM.sum(axis=1)`;
* `Y`              — cell `Y = EM.apply(lambda column : column / library_size)`;
* `Y_clonal`       — cell `Y.assign(Clone=...).groupby('Clone').apply(np.mean)`;
* `Y_refOpt`       — cell `Y_ref = Y_clonal.loc['P1_A03']` (pandas `.loc`
  raises `KeyError`, a `LookupError`, when the label is absent; we model the
  fallible lookup with `Option`);
* `ok_genes`, `ratiosOf`, `npMedian`, `tau` — the tau loop
  (`ok_genes = [gene for gene in genes_relevant if numerator[gene] != 0 and
  denominator[gene] != 0]`, `ratios = numerator[ok_genes]/denominator[ok_genes]`,
  `tau[clone] = np.median(ratios)`); `np.median` of an empty array is `NaN`,
  modelled as `none`;
* `effective_lib_size` — cells building `scalar_lib_size = clonalities.map(tau)`
  and `effective_lib_size = scalar_lib_size * library_size`;
* `geo_mean`, `relative_normalization_factor`, `mrn_counts` — the real-valued
  tail of the pipeline (`geo_mean = np.exp(effective_lib_size.apply(np.log).mean())`,
  `relative_normalization_factor = effective_lib_size / geo_mean`,
  `mrn_counts = EM.div(relative_normalization_factor, axis=0)`).

Exact rational arithmetic stands in for float arithmetic in the first stages;
the logarithm/exponential stage is embedded over `ℝ`.
-/

namespace MRN

/-- Library size of sample `s`: the sum of the raw counts in row `s` of `EM`
(notebook: `library_size = EM.sum(axis=1)`). -/
def library_size {m n : ℕ} (EM : Fin m → Fin n → ℚ) (s : Fin m) : ℚ :=
  ∑ g, EM s g

/-- Library-size-normalized matrix
(notebook: `Y = EM.apply(lambda column : column / library_size)`). -/
def Y {m n : ℕ} (EM : Fin m → Fin n → ℚ) (s : Fin m) (g : Fin n) : ℚ :=
  EM s g / library_size EM s

/-- The samples assigned to clone `c` by the clone assignment. -/
def members {m : ℕ} (clone : Fin m → ℕ) (c : ℕ) : Finset (Fin m) :=
  Finset.univ.filter (fun s => clone s = c)

/-- Per-clone mean profile: the element-wise arithmetic mean of the rows of `Y`
belonging to clone `c` (notebook:
`Y_clonal = Y.assign(Clone=meta_df['Clone_ID']).groupby('Clone').apply(np.mean)`). -/
def Y_clonal {m n : ℕ} (EM : Fin m → Fin n → ℚ) (clone : Fin m → ℕ) (c : ℕ)
    (g : Fin n) : ℚ :=
  (∑ s ∈ members clone c, Y EM s g) / (members clone c).card

/-- Reference-profile lookup (notebook: `Y_ref = Y_clonal.loc['P1_A03']`).
`Y_clonal`'s index holds exactly the clone IDs that occur in the clone
assignment; `.loc` on an absent label raises `KeyError` (a `LookupError`),
modelled as `none`. -/
def Y_refOpt {m n : ℕ} (EM : Fin m → Fin n → ℚ) (clone : Fin m → ℕ)
    (refc : ℕ) : Option (Fin n → ℚ) :=
  if ∃ s, clone s = refc then some (Y_clonal EM clone refc) else none

/-- The genes kept for the ratio computation: those strictly nonzero in both
the numerator profile and the denominator profile (notebook:
`ok_genes = [gene for gene in genes_relevant if (numerator[gene] != 0) and
(denominator[gene] != 0)]`). -/
def ok_genes {n : ℕ} (num den : Fin n → ℚ) : List (Fin n) :=
  (List.finRange n).filter (fun g => decide (num g ≠ 0 ∧ den g ≠ 0))

/-- The per-gene fold changes over the kept genes (notebook:
`ratios = numerator[ok_genes] / denominator[ok_genes]`). -/
def ratiosOf {n : ℕ} (num den : Fin n → ℚ) : List ℚ :=
  (ok_genes num den).map (fun g => num g / den g)

/-- `np.median`: sort ascending; an odd-length array yields the middle element,
an even-length array the average of the two middle elements, and the empty
array yields `NaN` (modelled as `none`). -/
def npMedian (l : List ℚ) : Option ℚ :=
  if l.length = 0 then none
  else
    if l.length % 2 = 1 then some ((List.insertionSort (· ≤ ·) l).getD (l.length / 2) 0)
    else some (((List.insertionSort (· ≤ ·) l).getD (l.length / 2 - 1) 0 +
                (List.insertionSort (· ≤ ·) l).getD (l.length / 2) 0) / 2)

/-- Tau of clone `c` given a reference profile `yref`
(notebook tau loop body: `tau[clone] = np.median(ratios)`). -/
def tauOf {m n : ℕ} (EM : Fin m → Fin n → ℚ) (clone : Fin m → ℕ)
    (yref : Fin n → ℚ) (c : ℕ) : Option ℚ :=
  npMedian (ratiosOf (Y_clonal EM clone c) yref)

/-- Tau of clone `c` relative to reference clone `refc` (notebook tau loop with
`denominator = Y_ref`). -/
def tau {m n : ℕ} (EM : Fin m → Fin n → ℚ) (clone : Fin m → ℕ)
    (refc : ℕ) (c : ℕ) : Option ℚ :=
  tauOf EM clone (Y_clonal EM clone refc) c

/-- The tau stage as it actually runs after the reference lookup: it is only
reached when `Y_ref = Y_clonal.loc[refc]` succeeded. -/
def tauStage {m n : ℕ} (EM : Fin m → Fin n → ℚ) (clone : Fin m → ℕ)
    (refc : ℕ) : Option (ℕ → Option ℚ) :=
  (Y_refOpt EM clone refc).map (fun yref => tauOf EM clone yref)

/-- Effective library size of sample `s`, given the per-clone scaling factors
`tauS` (notebook: `scalar_lib_size = clonalities.map(tau)` followed by
`effective_lib_size = scalar_lib_size * library_size`). -/
def effective_lib_size {m n : ℕ} (EM : Fin m → Fin n → ℚ) (clone : Fin m → ℕ)
    (tauS : ℕ → ℚ) (s : Fin m) : ℚ :=
  tauS (clone s) * library_size EM s

/-- Geometric mean of a per-sample series (notebook:
`geo_mean = np.exp(effective_lib_size.apply(np.log).mean())`). -/
noncomputable def geo_mean {m : ℕ} (e : Fin m → ℝ) : ℝ :=
  Real.exp ((∑ s, Real.log (e s)) / m)

/-- Per-sample relative normalization factor (notebook:
`relative_normalization_factor = effective_lib_size / geo_mean`). -/
noncomputable def relative_normalization_factor {m : ℕ} (e : Fin m → ℝ)
    (s : Fin m) : ℝ :=
  e s / geo_mean e

/-- Final normalized counts (notebook:
`mrn_counts = EM.div(relative_normalization_factor, axis=0)`); the raw matrix
`EM`, not `Y`, is divided by the per-sample factor. -/
noncomputable def mrn_counts {m n : ℕ} (EMr : Fin m → Fin n → ℝ) (e : Fin m → ℝ)
    (s : Fin m) (g : Fin n) : ℝ :=
  EMr s g / relative_normalization_factor e s

/-! ## Spec-side definitions

For the refinement claim about tau, the following definitions are written from
the specification's words rather than from the notebook: the ratio collection
is "the ratios `GroupProfile[g, gene] / ReferenceProfile[gene]` taken over
exactly those genes where both are strictly nonzero", and the median of a
sorted even-length list is "the average of the two middle values". -/

/-- The spec's ratio collection: the multiset of ratios over exactly the genes
strictly nonzero in both profiles. -/
def specRatios {n : ℕ} (num den : Fin n → ℚ) : Multiset ℚ :=
  (Finset.univ.filter (fun g => num g ≠ 0 ∧ den g ≠ 0)).val.map
    (fun g => num g / den g)

/-- The spec's median: sort ascending; an odd-length list yields the middle
value, an even-length list the average of the two middle values; an empty
collection has no median. -/
def specMedian (v : Multiset ℚ) : Option ℚ :=
  if Multiset.card v = 0 then none
  else
    if Multiset.card v % 2 = 1 then
      some ((Multiset.sort (· ≤ ·) v).getD (Multiset.card v / 2) 0)
    else
      some (((Multiset.sort (· ≤ ·) v).getD (Multiset.card v / 2 - 1) 0 +
             (Multiset.sort (· ≤ ·) v).getD (Multiset.card v / 2) 0) / 2)

/-! ## Helper lemmas -/

/-- Sorting a list with insertion sort agrees with sorting its multiset. -/
lemma insertionSort_eq_sort (l : List ℚ) :
    List.insertionSort (· ≤ ·) l = Multiset.sort (· ≤ ·) (l : Multiset ℚ) := by
  exact List.eq_of_perm_of_sorted
    ((List.perm_insertionSort _ l).trans
      (Multiset.coe_eq_coe.mp (Multiset.sort_eq (α := ℚ) (· ≤ ·) l).symm))
    (List.sorted_insertionSort _ l) (Multiset.sort_sorted _ _)

/-- The code's ratio list carries the spec's ratio multiset. -/
lemma specRatios_eq_coe {n : ℕ} (num den : Fin n → ℚ) :
    specRatios num den = (ratiosOf num den : Multiset ℚ) := by
  unfold specRatios ratiosOf ok_genes
  rw [Finset.filter_val, Fin.univ_def]
  show Multiset.map _ (Multiset.filter _ (List.finRange n : Multiset (Fin n))) = _
  rw [Multiset.filter_coe, Multiset.map_coe]

/-- `np.median` of a nonempty list all of whose entries are `1` is `1`. -/
lemma npMedian_const_one (l : List ℚ) (h0 : l ≠ []) (h1 : ∀ x ∈ l, x = 1) :
    npMedian l = some 1 := by
  have hlen : l.length ≠ 0 := fun h => h0 (List.length_eq_zero.mp h)
  have hpos : 0 < l.length := Nat.pos_of_ne_zero hlen
  have hslen : (List.insertionSort (· ≤ ·) l).length = l.length :=
    (List.perm_insertionSort _ l).length_eq
  have hget : ∀ i, i < l.length → (List.insertionSort (· ≤ ·) l).getD i 0 = 1 := by
    intro i hi
    have hi' : i < (List.insertionSort (· ≤ ·) l).length := by rwa [hslen]
    rw [List.getD_eq_getElem _ _ hi']
    exact h1 _ ((List.perm_insertionSort _ l).mem_iff.mp (List.getElem_mem hi'))
  have hmid : l.length / 2 < l.length := Nat.div_lt_self hpos (by norm_num)
  unfold npMedian
  rw [if_neg hlen]
  by_cases hodd : l.length % 2 = 1
  · rw [if_pos hodd, hget _ hmid]
  · rw [if_neg hodd, hget _ hmid, hget _ (lt_of_le_of_lt (Nat.sub_le _ _) hmid)]
    norm_num

/-! ## C1: tau is the spec's median of the spec's ratio set -/

/-- C1: for every group `c`, the scaling factor `tau[c]` computed by the
notebook's loop equals the median — standard semantics, averaging the two
middle values for even length — of the ratios `GroupProfile[c,gene] /
ReferenceProfile[gene]` over exactly the genes strictly nonzero in both
profiles (both are undefined together when no gene qualifies). -/
theorem tau_eq_specMedian {m n : ℕ} (EM : Fin m → Fin n → ℚ)
    (clone : Fin m → ℕ) (refc c : ℕ) :
    tau EM clone refc c =
      specMedian (specRatios (Y_clonal EM clone c) (Y_clonal EM clone refc)) := by
  rw [specRatios_eq_coe]
  show npMedian _ = _
  unfold npMedian specMedian
  rw [insertionSort_eq_sort]
  norm_num

/-! ## C3: the library-size scaler divides by the row sum and its rows sum to 1 -/

/-- C3: `Y[sample, gene] = M[sample, gene] / (row sum of sample)`, and whenever
the row sum is nonzero the corresponding row of `Y` sums to exactly `1`. -/
theorem Y_div_and_row_sum_one {m n : ℕ} (EM : Fin m → Fin n → ℚ) (s : Fin m)
    (h : library_size EM s ≠ 0) :
    (∀ g, Y EM s g = EM s g / ∑ g', EM s g') ∧ (∑ g, Y EM s g) = 1 := by
  constructor
  · intro g; rfl
  · unfold Y
    rw [← Finset.sum_div]
    exact div_self h

/-- Witness for C3 at the 1×1 matrix with single entry 2. -/
theorem Y_div_and_row_sum_one_witness :
    library_size (fun (_ : Fin 1) (_ : Fin 1) => (2 : ℚ)) 0 ≠ 0 ∧
      (∑ g, Y (fun (_ : Fin 1) (_ : Fin 1) => (2 : ℚ)) 0 g) = 1 := by
  have h : library_size (fun (_ : Fin 1) (_ : Fin 1) => (2 : ℚ)) 0 ≠ 0 := by
    norm_num [library_size]
  exact ⟨h, (Y_div_and_row_sum_one (fun _ _ => (2 : ℚ)) 0 h).2⟩

/-! ## C4: the reference group's own tau equals 1 -/

/-- C4: when the reference profile has at least one strictly nonzero entry, the
reference group's own tau is exactly `1`: every ratio in its ok-gene set is a
value divided by itself. -/
theorem tau_ref_eq_one {m n : ℕ} (EM : Fin m → Fin n → ℚ) (clone : Fin m → ℕ)
    (refc : ℕ) (h : ∃ g, Y_clonal EM clone refc g ≠ 0) :
    tau EM clone refc refc = some 1 := by
  obtain ⟨g0, hg0⟩ := h
  unfold tau tauOf
  apply npMedian_const_one
  · apply List.ne_nil_of_mem
    apply List.mem_map_of_mem
    unfold ok_genes
    exact List.mem_filter.mpr ⟨List.mem_finRange g0, by simp [hg0]⟩
  · intro x hx
    obtain ⟨g, hg, rfl⟩ := List.mem_map.mp hx
    have hne : Y_clonal EM clone refc g ≠ 0 := by
      have := (List.mem_filter.mp hg).2
      simp only [decide_eq_true_eq] at this
      exact this.1
    exact div_self hne

/-- A 1×1 expression matrix with single raw count 1, used to instantiate
hypotheses of the general theorems at a concrete input. -/
def oneMat : Fin 1 → Fin 1 → ℚ := fun _ _ => 1

/-- The clone assignment sending the single sample of `oneMat` to clone 0. -/
def oneClone : Fin 1 → ℕ := fun _ => 0

/-- The single clonal profile of `oneMat` evaluates to 1. -/
lemma oneMat_Y_clonal : Y_clonal oneMat oneClone 0 0 = 1 := by
  have hmem : members oneClone 0 = Finset.univ := by decide
  rw [Y_clonal, hmem]
  norm_num [Y, library_size, oneMat]

/-- Witness for C4 at `oneMat`. -/
theorem tau_ref_eq_one_witness :
    (∃ g, Y_clonal oneMat oneClone 0 g ≠ 0) ∧ tau oneMat oneClone 0 0 = some 1 := by
  have h : Y_clonal oneMat oneClone 0 0 ≠ 0 := by rw [oneMat_Y_clonal]; norm_num
  exact ⟨⟨0, h⟩, tau_ref_eq_one oneMat oneClone 0 ⟨0, h⟩⟩

/-- The single clone of `oneMat` has tau exactly 1, by direct computation. -/
lemma oneMat_tau : tau oneMat oneClone 0 0 = some 1 := by
  have hfun : Y_clonal oneMat oneClone 0 = fun _ => 1 := by
    funext g
    have hg : g = 0 := Subsingleton.elim g 0
    rw [hg, oneMat_Y_clonal]
  have hfr : List.finRange 1 = [0] := by decide
  unfold tau tauOf
  rw [hfun, ratiosOf, ok_genes, hfr]
  norm_num [npMedian]

/-! ## C2: the final output divides the raw counts by the relative factor -/

/-- C2: given per-clone scaling factors `tauS` as computed by the tau stage,
the final output is the ORIGINAL count matrix divided sample-wise by
`RelativeNormalizationFactor[sample] = EffectiveLibSize[sample] /
exp(mean of log EffectiveLibSize)` with `EffectiveLibSize[sample] =
tau[clone(sample)] * LibrarySize[sample]`. -/
theorem mrn_counts_eq_raw_div_rnf {m n : ℕ} (EM : Fin m → Fin n → ℚ)
    (clone : Fin m → ℕ) (refc : ℕ) (tauS : ℕ → ℚ)
    (hτ : ∀ s, tau EM clone refc (clone s) = some (tauS (clone s)))
    (hL : ∀ s, 0 < library_size EM s) (s : Fin m) (g : Fin n) :
    mrn_counts (fun s' g' => (EM s' g' : ℝ))
        (fun s' => (effective_lib_size EM clone tauS s' : ℝ)) s g
      = (EM s g : ℝ) /
          (((tauS (clone s) : ℝ) * (library_size EM s : ℝ)) /
            Real.exp
              ((∑ s', Real.log ((tauS (clone s') : ℝ) * (library_size EM s' : ℝ))) / m)) := by
  unfold mrn_counts relative_normalization_factor geo_mean effective_lib_size
  push_cast
  rfl

/-- Witness for C2 at `oneMat` with its computed tau value 1. -/
theorem mrn_counts_eq_raw_div_rnf_witness :
    tau oneMat oneClone 0 (oneClone 0) = some 1 ∧
    0 < library_size oneMat 0 ∧
    mrn_counts (fun s' g' => (oneMat s' g' : ℝ))
        (fun s' => (effective_lib_size oneMat oneClone (fun _ => 1) s' : ℝ)) 0 0
      = (oneMat 0 0 : ℝ) /
          ((((1 : ℚ) : ℝ) * (library_size oneMat 0 : ℝ)) /
            Real.exp
              ((∑ s', Real.log (((1 : ℚ) : ℝ) * (library_size oneMat s' : ℝ))) /
                ((1 : ℕ) : ℝ))) := by
  have hL : ∀ s, 0 < library_size oneMat s := by
    intro s
    norm_num [library_size, oneMat]
  exact ⟨oneMat_tau, hL 0,
    mrn_counts_eq_raw_div_rnf oneMat oneClone 0 (fun _ => 1)
      (fun _ => oneMat_tau) hL 0 0⟩

/-! ## C5: the relative normalization factors have geometric mean 1 -/

/-- C5: for strictly positive effective library sizes, the geometric mean of
the relative normalization factors across the samples is exactly 1, i.e.
`exp(mean(log(EffectiveLibSize / GeometricMean))) = 1`. -/
theorem rnf_geo_mean_one {m : ℕ} (hm : 0 < m) (e : Fin m → ℝ)
    (he : ∀ s, 0 < e s) :
    geo_mean (relative_normalization_factor e) = 1 := by
  have hm' : (m : ℝ) ≠ 0 := ne_of_gt (Nat.cast_pos.mpr hm)
  have hG : (0 : ℝ) < geo_mean e := Real.exp_pos _
  have hlogG : Real.log (geo_mean e) = (∑ s, Real.log (e s)) / m := by
    unfold geo_mean
    exact Real.log_exp _
  have hsum : (∑ s, Real.log (relative_normalization_factor e s)) = 0 := by
    unfold relative_normalization_factor
    rw [Finset.sum_congr rfl
          (fun s _ => Real.log_div (ne_of_gt (he s)) (ne_of_gt hG)),
        Finset.sum_sub_distrib, hlogG, Finset.sum_const, Finset.card_univ,
        Fintype.card_fin, nsmul_eq_mul, mul_div_cancel₀ _ hm', sub_self]
  unfold geo_mean
  rw [hsum, zero_div, Real.exp_zero]

/-- Witness for C5 at a single sample with effective library size 1. -/
theorem rnf_geo_mean_one_witness :
    0 < 1 ∧
      geo_mean (relative_normalization_factor (fun _ : Fin 1 => (1 : ℝ))) = 1 :=
  ⟨by norm_num,
    rnf_geo_mean_one (by norm_num) (fun _ => (1 : ℝ)) (fun _ => by norm_num)⟩

/-! ## Row scaling: the experiment behind C8 and C10 -/

/-- The matrix obtained from `EM` by multiplying every entry of row `s0` by
`k`. -/
def scaleRow {m n : ℕ} (EM : Fin m → Fin n → ℚ) (s0 : Fin m) (k : ℚ) :
    Fin m → Fin n → ℚ :=
  fun s g => if s = s0 then k * EM s g else EM s g

/-- Scaling row `s0` by `k` multiplies its library size by `k`. -/
lemma library_size_scaleRow_self {m n : ℕ} (EM : Fin m → Fin n → ℚ)
    (s0 : Fin m) (k : ℚ) :
    library_size (scaleRow EM s0 k) s0 = k * library_size EM s0 := by
  unfold library_size scaleRow
  simp [Finset.mul_sum]

/-- Scaling row `s0` leaves the library size of any other row unchanged. -/
lemma library_size_scaleRow_ne {m n : ℕ} (EM : Fin m → Fin n → ℚ)
    (s0 : Fin m) (k : ℚ) (s : Fin m) (h : s ≠ s0) :
    library_size (scaleRow EM s0 k) s = library_size EM s := by
  unfold library_size scaleRow
  simp [h]

/-- Scaling a row by a nonzero constant cancels in the library-size
normalization: `Y` is unchanged everywhere. -/
lemma Y_scaleRow {m n : ℕ} (EM : Fin m → Fin n → ℚ) (s0 : Fin m) (k : ℚ)
    (hk : k ≠ 0) (s : Fin m) (g : Fin n) :
    Y (scaleRow EM s0 k) s g = Y EM s g := by
  unfold Y library_size scaleRow
  by_cases h : s = s0
  · simp only [h, if_true]
    rw [← Finset.mul_sum, mul_div_mul_left _ _ hk]
  · simp only [h, if_false]

/-- Scaling a row by a nonzero constant leaves every clonal mean profile
unchanged. -/
lemma Y_clonal_scaleRow {m n : ℕ} (EM : Fin m → Fin n → ℚ) (clone : Fin m → ℕ)
    (s0 : Fin m) (k : ℚ) (hk : k ≠ 0) (c : ℕ) (g : Fin n) :
    Y_clonal (scaleRow EM s0 k) clone c g = Y_clonal EM clone c g := by
  unfold Y_clonal
  congr 1
  exact Finset.sum_congr rfl (fun s _ => Y_scaleRow EM s0 k hk s g)

/-- Scaling a row by a nonzero constant leaves every clone's tau unchanged. -/
lemma tau_scaleRow {m n : ℕ} (EM : Fin m → Fin n → ℚ) (clone : Fin m → ℕ)
    (refc : ℕ) (s0 : Fin m) (k : ℚ) (hk : k ≠ 0) (c : ℕ) :
    tau (scaleRow EM s0 k) clone refc c = tau EM clone refc c := by
  unfold tau tauOf
  have h : Y_clonal (scaleRow EM s0 k) clone = Y_clonal EM clone := by
    funext c' g
    exact Y_clonal_scaleRow EM clone s0 k hk c' g
  rw [h]

/-! ## C10: per-sample scaling cancels before any group mean or ratio -/

/-- C10: multiplying every raw count of one sample by `k > 0` leaves that
sample's normalized row, every clonal profile, the reference profile, and
every clone's tau unchanged — including when the sample belongs to the
reference clone. -/
theorem scaleRow_invariance {m n : ℕ} (EM : Fin m → Fin n → ℚ)
    (clone : Fin m → ℕ) (refc : ℕ) (s0 : Fin m) (k : ℚ) (hk : 0 < k) :
    (∀ g, Y (scaleRow EM s0 k) s0 g = Y EM s0 g) ∧
    (∀ c g, Y_clonal (scaleRow EM s0 k) clone c g = Y_clonal EM clone c g) ∧
    (∀ g, Y_clonal (scaleRow EM s0 k) clone refc g = Y_clonal EM clone refc g) ∧
    (∀ c, tau (scaleRow EM s0 k) clone refc c = tau EM clone refc c) := by
  have hk' : k ≠ 0 := ne_of_gt hk
  exact ⟨fun g => Y_scaleRow EM s0 k hk' s0 g,
    fun c g => Y_clonal_scaleRow EM clone s0 k hk' c g,
    fun g => Y_clonal_scaleRow EM clone s0 k hk' refc g,
    fun c => tau_scaleRow EM clone refc s0 k hk' c⟩

/-- Witness for C10 at `oneMat` with `k = 2`. -/
theorem scaleRow_invariance_witness :
    (0 : ℚ) < 2 ∧
    Y (scaleRow oneMat 0 2) 0 0 = Y oneMat 0 0 ∧
    tau (scaleRow oneMat 0 2) oneClone 0 0 = tau oneMat oneClone 0 0 := by
  have h := scaleRow_invariance oneMat oneClone 0 0 2 (by norm_num)
  exact ⟨by norm_num, h.1 0, h.2.2.2 0⟩

/-! ## C8: effect of scaling a non-reference sample -/

/-- A 2-sample, 1-gene matrix with all raw counts 1: two clones with one
sample each. -/
def em8 : Fin 2 → Fin 1 → ℚ := fun _ _ => 1

/-- The clone assignment of `em8`: sample 0 to clone 0, sample 1 to clone 1. -/
def cl8 : Fin 2 → ℕ := fun s => s.val

/-- Both clonal profiles of `em8` are constantly 1. -/
lemma em8_Y_clonal (c : ℕ) (hc : c < 2) : Y_clonal em8 cl8 c = fun _ => 1 := by
  funext g
  have hg : g = 0 := Subsingleton.elim g 0
  subst hg
  have hY : ∀ s : Fin 2, Y em8 s 0 = 1 := by
    intro s
    norm_num [Y, library_size, em8]
  interval_cases c
  · have hmem : members cl8 0 = {0} := by decide
    rw [Y_clonal, hmem]
    norm_num [hY]
  · have hmem : members cl8 1 = {1} := by decide
    rw [Y_clonal, hmem]
    norm_num [hY]

/-- Ratios of the constant-one profile against itself have median 1. -/
lemma npMedian_one_profile :
    npMedian (ratiosOf (fun _ : Fin 1 => (1 : ℚ)) (fun _ => 1)) = some 1 := by
  have hfr : List.finRange 1 = [0] := by decide
  rw [ratiosOf, ok_genes, hfr]
  norm_num [npMedian]

/-- Both taus of `em8` relative to reference clone 0 are 1. -/
lemma em8_tau (c : ℕ) (hc : c < 2) : tau em8 cl8 0 c = some 1 := by
  unfold tau tauOf
  rw [em8_Y_clonal c hc, em8_Y_clonal 0 (by norm_num)]
  exact npMedian_one_profile

/-- Every effective library size of `em8` (with its computed taus, all 1) is
1. -/
lemma em8_effective (s : Fin 2) :
    effective_lib_size em8 cl8 (fun _ => 1) s = 1 := by
  norm_num [effective_lib_size, library_size, em8]

/-- C8, counterexample: at `em8` (two clones of one sample each, reference
clone 0), scaling the raw counts of sample 1 — which is not in the reference
clone — by `k = 2` leaves every tau unchanged (at value 1) yet CHANGES the
geometric mean of the effective library sizes, contrary to the claim. -/
theorem scaleRow_geo_mean_counterexample :
    tau em8 cl8 0 0 = some 1 ∧ tau em8 cl8 0 1 = some 1 ∧
    tau (scaleRow em8 1 2) cl8 0 0 = some 1 ∧
    tau (scaleRow em8 1 2) cl8 0 1 = some 1 ∧
    cl8 1 ≠ 0 ∧
    geo_mean
        (fun s => (effective_lib_size (scaleRow em8 1 2) cl8 (fun _ => 1) s : ℝ))
      ≠ geo_mean (fun s => (effective_lib_size em8 cl8 (fun _ => 1) s : ℝ)) := by
  refine ⟨em8_tau 0 (by norm_num), em8_tau 1 (by norm_num),
    (tau_scaleRow em8 cl8 0 1 2 (by norm_num) 0).trans (em8_tau 0 (by norm_num)),
    (tau_scaleRow em8 cl8 0 1 2 (by norm_num) 1).trans (em8_tau 1 (by norm_num)),
    by norm_num [cl8], ?_⟩
  have he0' : effective_lib_size (scaleRow em8 1 2) cl8 (fun _ => 1) 0 = 1 := by
    unfold effective_lib_size
    rw [library_size_scaleRow_ne em8 1 2 0 (by decide)]
    norm_num [library_size, em8]
  have he1' : effective_lib_size (scaleRow em8 1 2) cl8 (fun _ => 1) 1 = 2 := by
    unfold effective_lib_size
    rw [library_size_scaleRow_self]
    norm_num [library_size, em8]
  have hgm : geo_mean (fun s => (effective_lib_size em8 cl8 (fun _ => 1) s : ℝ))
      = 1 := by
    unfold geo_mean
    rw [Fin.sum_univ_two]
    norm_num [em8_effective]
  have hgm' : geo_mean
      (fun s => (effective_lib_size (scaleRow em8 1 2) cl8 (fun _ => 1) s : ℝ))
      = Real.exp (Real.log 2 / 2) := by
    unfold geo_mean
    rw [Fin.sum_univ_two]
    norm_num [he0', he1']
  rw [hgm, hgm']
  intro hEq
  rw [Real.exp_eq_one_iff] at hEq
  have hlog : 0 < Real.log 2 := Real.log_pos (by norm_num)
  linarith

/-- C8, amended: scaling the raw counts of a non-reference sample `s0` by
`k > 0` multiplies its library size by `k`, leaves every clone's tau and the
reference profile unchanged, and leaves every OTHER sample's effective library
size unchanged (so the geometric mean over the other samples is unchanged;
the overall geometric mean, however, picks up a factor `k^(1/m)`). -/
theorem scaleRow_amended {m n : ℕ} (EM : Fin m → Fin n → ℚ)
    (clone : Fin m → ℕ) (refc : ℕ) (s0 : Fin m) (k : ℚ) (tauS : ℕ → ℚ)
    (hk : 0 < k) (hs : clone s0 ≠ refc) :
    library_size (scaleRow EM s0 k) s0 = k * library_size EM s0 ∧
    (∀ c, tau (scaleRow EM s0 k) clone refc c = tau EM clone refc c) ∧
    (∀ g, Y_clonal (scaleRow EM s0 k) clone refc g = Y_clonal EM clone refc g) ∧
    (∀ s, s ≠ s0 →
      effective_lib_size (scaleRow EM s0 k) clone tauS s =
        effective_lib_size EM clone tauS s) := by
  have hk' : k ≠ 0 := ne_of_gt hk
  refine ⟨library_size_scaleRow_self EM s0 k,
    fun c => tau_scaleRow EM clone refc s0 k hk' c,
    fun g => Y_clonal_scaleRow EM clone s0 k hk' refc g, ?_⟩
  intro s hss
  unfold effective_lib_size
  rw [library_size_scaleRow_ne EM s0 k s hss]

/-- Witness for the amended C8 at `em8`, scaling the non-reference sample 1
by `k = 2`. -/
theorem scaleRow_amended_witness :
    (0 : ℚ) < 2 ∧ cl8 1 ≠ 0 ∧
    library_size (scaleRow em8 1 2) 1 = 2 * library_size em8 1 ∧
    tau (scaleRow em8 1 2) cl8 0 0 = tau em8 cl8 0 0 ∧
    effective_lib_size (scaleRow em8 1 2) cl8 (fun _ => 1) 0 =
      effective_lib_size em8 cl8 (fun _ => 1) 0 := by
  have hs : cl8 1 ≠ 0 := by norm_num [cl8]
  have h := scaleRow_amended em8 cl8 0 1 2 (fun _ => 1) (by norm_num) hs
  exact ⟨by norm_num, hs, h.1, h.2.1 0, h.2.2.2 0 (by decide)⟩

/-! ## C6: behaviour on an empty ok-gene set -/

/-- A 2-sample, 2-gene matrix whose two clones express disjoint gene sets:
sample 0 (clone 0) has counts `[1, 0]`, sample 1 (clone 1) has counts
`[0, 2]`. -/
def em6 : Fin 2 → Fin 2 → ℚ :=
  fun s g => if s = 0 then (if g = 0 then 1 else 0) else (if g = 0 then 0 else 2)

/-- The clone assignment of `em6`: sample 0 to clone 0, sample 1 to clone 1. -/
def cl6 : Fin 2 → ℕ := fun s => s.val

/-- C6, code evaluation at the failing input: with reference clone 0, clone 1
of `em6` has an empty ok-gene set (its profile is zero wherever the reference
profile is nonzero and vice versa), and the code's tau for clone 1 is the
median of an empty ratio list — `np.median([])`, i.e. `NaN` (modelled
`none`) — not an `InsufficientDataError`. -/
theorem tau_nan_on_empty_ok_genes : tau em6 cl6 0 1 = none := by
  have h10 : Y_clonal em6 cl6 1 0 = 0 := by
    have hmem : members cl6 1 = {1} := by decide
    rw [Y_clonal, hmem]
    norm_num [Y, library_size, em6, Fin.sum_univ_two]
  have h01 : Y_clonal em6 cl6 0 1 = 0 := by
    have hmem : members cl6 0 = {0} := by decide
    rw [Y_clonal, hmem]
    norm_num [Y, library_size, em6, Fin.sum_univ_two]
  unfold tau tauOf
  have hr : ratiosOf (Y_clonal em6 cl6 1) (Y_clonal em6 cl6 0) = [] := by
    rw [ratiosOf, ok_genes]
    have hfr : List.finRange 2 = [0, 1] := by decide
    rw [hfr]
    simp [List.filter, h10, h01]
  rw [hr]
  rfl

/-! ## C7: behaviour on a zero-count sample -/

/-- A 1-sample, 2-gene matrix whose only sample has all counts zero — the
degenerate empty library. -/
def em7 : Fin 1 → Fin 2 → ℚ := fun _ _ => 0

/-- C7, code evaluation at the failing input: the all-zero sample of `em7`
has library size 0, yet the scaler `Y = EM.apply(lambda column : column /
library_size)` is a total computation with no zero check: it divides by 0
regardless (in float arithmetic yielding non-finite values, not a
`DivisionError`). -/
theorem zero_library_size_reachable : library_size em7 0 = 0 := by
  norm_num [library_size, em7]

/-! ## C9: absent reference clone makes the lookup fail -/

/-- C9: when the chosen reference clone ID occurs nowhere in the clone
assignment, the reference lookup `Y_clonal.loc[ref]` fails (pandas raises
`KeyError`, a subclass of `LookupError`) and the tau stage, which consumes
the lookup's result, never runs. -/
theorem refLookup_fails {m n : ℕ} (EM : Fin m → Fin n → ℚ)
    (clone : Fin m → ℕ) (refc : ℕ) (h : ∀ s, clone s ≠ refc) :
    Y_refOpt EM clone refc = none ∧ tauStage EM clone refc = none := by
  have hex : ¬ ∃ s, clone s = refc := by
    rintro ⟨s, hs⟩
    exact h s hs
  constructor
  · unfold Y_refOpt
    rw [if_neg hex]
  · unfold tauStage Y_refOpt
    rw [if_neg hex]
    rfl

/-- Witness for C9 at `oneMat` with the absent reference clone ID 1. -/
theorem refLookup_fails_witness :
    oneClone 0 ≠ 1 ∧ Y_refOpt oneMat oneClone 1 = none ∧
      tauStage oneMat oneClone 1 = none := by
  have h : ∀ s, oneClone s ≠ 1 := fun s => by norm_num [oneClone]
  exact ⟨h 0, (refLookup_fails oneMat oneClone 1 h).1,
    (refLookup_fails oneMat oneClone 1 h).2⟩

end MRN
